import Mathlib

/-!
Verification of the calliopeai-proxy model-proxy pipeline and crawl
orchestrator.  JavaScript strings are modelled as `List Char`, JSON values
as the inductive `Jval`, request bodies as finite lookup functions, the
process environment as a lookup function, and the network (axios) as an
oracle describing the upstream outcome.  Each definition mirrors the
corresponding TypeScript function from the source.
-/

set_option maxRecDepth 4000

namespace CalliopeProxy

/-- A JavaScript string, modelled as its list of characters. -/
abbrev JStr := List Char

/-- JSON values, as produced by parsing a request body. -/
inductive Jval where
  | vnull
  | vbool (b : Bool)
  | vnum (n : Int)
  | vstr (s : JStr)
  | varr (n : Nat)
  | vobj (fields : List (JStr × Jval))

/-- JavaScript truthiness of a JSON value (`!v` is the negation).
`varr` and `vobj` are always truthy. -/
def Jval.falsy : Jval → Bool
  | .vnull => true
  | .vbool b => !b
  | .vnum n => n == 0
  | .vstr s => s.isEmpty
  | .varr _ => false
  | .vobj _ => false

/-- Truthiness of a possibly-absent (`undefined`) value. -/
def jsFalsyOpt : Option Jval → Bool
  | none => true
  | some v => v.falsy

/-- JavaScript property access `v.key`: a field lookup on objects,
`undefined` on every non-object primitive. -/
def getField : Jval → JStr → Option Jval
  | .vobj fields, key => (fields.find? (fun p => p.1 == key)).map Prod.snd
  | _, _ => none

/-- Property access through a possibly-absent receiver. -/
def getFieldOpt (v : Option Jval) (key : JStr) : Option Jval :=
  match v with
  | some w => getField w key
  | none => none

/-- A request body: the JSON object of the inbound request, viewed as a
lookup from key to value (`none` = key absent). -/
abbrev BodyFn := JStr → Option Jval

/-- The process environment (`process.env`): variable name to value. -/
abbrev EnvFn := JStr → Option JStr

/-- JavaScript `String.prototype.split` with a single-character
separator `'/'` — always returns at least one (possibly empty) part. -/
def splitSlash : JStr → List JStr
  | [] => [[]]
  | c :: rest =>
    if c = '/' then [] :: splitSlash rest
    else
      match splitSlash rest with
      | [] => [[c]]
      | s :: ss => (c :: s) :: ss

/-- JavaScript `String.prototype.startsWith`. -/
def jsStartsWith : JStr → JStr → Bool
  | [], _ => true
  | _, [] => false
  | p :: ps, c :: cs => p == c && jsStartsWith ps cs

/-- ASCII lowering of one character, as `String.prototype.toLowerCase`
acts on ASCII letters. -/
def asciiLower (c : Char) : Char :=
  if 'A' ≤ c ∧ c ≤ 'Z' then Char.ofNat (c.toNat + 32) else c

/-- `String.prototype.toLowerCase`, restricted to ASCII input. -/
def jsToLower (s : JStr) : JStr := s.map asciiLower

/-- The three distinct error messages `parseModelString` can produce
(src/utils/proxyUtils.ts lines 18, 30, 43). -/
inductive ParseErrorKind where
  | nullOrNotString
  | invalidFormat
  | emptySegment
deriving DecidableEq, Repr

/-- Mirror of the `ParsedModel` interface (src/utils/proxyUtils.ts). -/
structure ParsedModel where
  ownerSlug : JStr
  packageSlug : JStr
  provider : JStr
  modelName : JStr
  isValid : Bool
  error : Option ParseErrorKind
deriving DecidableEq, Repr

/-- Mirror of `parseModelString` (src/utils/proxyUtils.ts, lines 10-54)
applied to a value that is a string.  The empty string is falsy in
JavaScript, so it takes the `null, undefined, or not a string` branch. -/
def parseModelString (modelString : JStr) : ParsedModel :=
  if modelString.isEmpty then
    ⟨[], [], [], [], false, some .nullOrNotString⟩
  else
    match splitSlash modelString with
    | [ownerSlug, packageSlug, provider, modelName] =>
      if ownerSlug.isEmpty || packageSlug.isEmpty || provider.isEmpty || modelName.isEmpty then
        ⟨ownerSlug, packageSlug, provider, modelName, false, some .emptySegment⟩
      else
        ⟨ownerSlug, packageSlug, provider, modelName, true, none⟩
    | _ => ⟨[], [], [], [], false, some .invalidFormat⟩

/-- `parseModelString(model)` on an arbitrary JSON value: the
`typeof modelString !== 'string'` guard sends every non-string (and the
absent value) to the `nullOrNotString` failure. -/
def parseModelVal : Option Jval → ParsedModel
  | some (.vstr s) => parseModelString s
  | _ => ⟨[], [], [], [], false, some .nullOrNotString⟩

/-- The `"env:"` descriptor marker used by `getApiKey`. -/
def envMarker : JStr := "env:".toList

/-- Mirror of `getApiKey` (src/services/llmProxyService.ts, lines
327-345): `none` argument is `undefined`; an empty descriptor is falsy;
an environment value that is unset or empty is falsy and yields `null`. -/
def getApiKey (env : EnvFn) (apiKeyLocation : Option JStr) : Option JStr :=
  match apiKeyLocation with
  | none => none
  | some loc =>
    if loc.isEmpty then none
    else if jsStartsWith envMarker loc then
      let envVarName := loc.drop 4
      match env envVarName with
      | none => none
      | some apiKey => if apiKey.isEmpty then none else some apiKey
    else none

/-- Header lists, as built for the outbound axios call. -/
abbrev Headers := List (JStr × JStr)

/-- The inbound Express request, as seen by `proxyLlmRequest`: the source
reads only `originalRequest.method`; the inbound headers are carried to
show they are never consulted. -/
structure InboundRequest where
  method : JStr
  headers : Headers

/-- The `responseType` axios option: `'stream'` or `'json'`. -/
inductive RespType where
  | stream
  | json
deriving DecidableEq, Repr

/-- Mirror of the `AxiosRequestConfig` built by `proxyLlmRequest`
(src/services/llmProxyService.ts, lines 361-380).  `timeout = 0` is the
axios encoding of "no timeout". -/
structure AxiosRequestConfig where
  method : JStr
  url : JStr
  headers : Headers
  data : BodyFn
  responseType : RespType
  timeout : Nat

/-- The outbound header set: exactly `Content-Type` and
`Authorization: Bearer <apiKey>` (lines 361-364). -/
def outboundHeaders (apiKey : JStr) : Headers :=
  [("Content-Type".toList, "application/json".toList),
   ("Authorization".toList, "Bearer ".toList ++ apiKey)]

/-- The body key `"stream"`. -/
def streamKey : JStr := "stream".toList

/-- Construction of the axios config in `proxyLlmRequest` (lines
372-380): streamed response representation and no timeout when the
body's `stream` flag is truthy, buffered JSON with a 30s (30000 ms)
timeout otherwise. -/
def mkAxiosConfig (originalRequest : InboundRequest) (downstreamUrl : JStr)
    (apiKey : JStr) (requestBody : BodyFn) : AxiosRequestConfig :=
  { method := originalRequest.method
    url := downstreamUrl
    headers := outboundHeaders apiKey
    data := requestBody
    responseType := if jsFalsyOpt (requestBody streamKey) then .json else .stream
    timeout := if jsFalsyOpt (requestBody streamKey) then 30000 else 0 }

/-- Outcome of the awaited `axios(config)` call, as classified by the
`catch` block of `proxyLlmRequest`: resolved response; axios error
carrying an upstream response; axios error with no response (network or
timeout); or a non-axios error. -/
inductive AxiosOutcome where
  | success (status : Nat) (data : Jval) (headers : Headers)
  | errorWithResponse (status : Nat) (data : Jval) (headers : Headers) (message : JStr)
  | errorNoResponse (message : JStr)
  | nonAxiosError (message : JStr)

/-- The `{error, details}` object built in the catch branches. -/
def errBody (error details : JStr) : Jval :=
  .vobj [("error".toList, .vstr error), ("details".toList, .vstr details)]

/-- Error text of the axios-error branch (line 403). -/
def proxyErrText : JStr := "Error proxying request".toList

/-- Error text of the non-axios-error branch (line 411). -/
def unexpectedErrText : JStr := "Unexpected error during proxying".toList

/-- The result envelope `{status, data, headers}` returned by
`proxyLlmRequest` on every path. -/
structure ForwardResult where
  status : Nat
  data : Jval
  headers : Headers

/-- Mirror of the result-normalisation of `proxyLlmRequest`
(src/services/llmProxyService.ts, lines 382-415).  On an axios error the
source returns `status: response?.status || 500`,
`data: response?.data || {error, details}` and
`headers: response?.headers || {}`; JavaScript `||` falls through on
every falsy value, hence the `Jval.falsy` tests. -/
def proxyLlmRequest (outcome : AxiosOutcome) : ForwardResult :=
  match outcome with
  | .success status data headers => ⟨status, data, headers⟩
  | .errorWithResponse status data headers message =>
      ⟨if status = 0 then 500 else status,
       if data.falsy then errBody proxyErrText message else data,
       headers⟩
  | .errorNoResponse message => ⟨500, errBody proxyErrText message, []⟩
  | .nonAxiosError message => ⟨500, errBody unexpectedErrText message, []⟩

/-- Recogniser for the JSON `null` value. -/
def Jval.isNull : Jval → Bool
  | .vnull => true
  | _ => false

/-- Well-formedness of the upstream outcome: an HTTP response parsed by
the node HTTP stack carries a status in 100..599.  No assumption is made
about response bodies — in particular a resolved 2xx call may carry a
parsed `null` body. -/
def AxiosOutcome.wf : AxiosOutcome → Prop
  | .success status _ _ => 100 ≤ status ∧ status ≤ 599
  | .errorWithResponse status _ _ _ => 100 ≤ status ∧ status ≤ 599
  | .errorNoResponse _ => True
  | .nonAxiosError _ => True

instance : DecidablePred AxiosOutcome.wf := by
  intro o
  cases o <;> simp only [AxiosOutcome.wf] <;> infer_instance

/-- The body key `"model"`. -/
def modelKey : JStr := "model".toList

/-- The body key `"calliopeProperties"`. -/
def calliopePropertiesKey : JStr := "calliopeProperties".toList

/-- The side-channel field key `"apiKeyLocation"`. -/
def apiKeyLocationKey : JStr := "apiKeyLocation".toList

/-- The side-channel field key `"apiBase"`. -/
def apiBaseKey : JStr := "apiBase".toList

/-- The distinct 400-class rejections of the model-proxy controllers
(src/controllers/modelProxyController.ts), one per error literal. -/
inductive RejectKind where
  | missingModel
  | missingCalliopeProperties
  | missingApiKeyLocation
  | invalidModelFormat (err : Option ParseErrorKind)
  | rerankUnsupported (provider : JStr)
  | apiKeyFailed
  | apiBaseRequired
deriving DecidableEq, Repr

/-- Result of the `apiBase` resolution block (lines 41-69): an explicit
non-empty string base is used as-is; otherwise the lowercased provider
selects a default; unknown providers are rejected.  A truthy non-string
`apiBase` later throws on `.endsWith`, modelled as `thrown`. -/
inductive BaseResolution where
  | ok (url : JStr)
  | reject
  | thrown
deriving Repr

/-- Mirror of the default-`apiBase` switch of `handleProxyRequest`
(lines 43-69), taking the already-lowercased provider. -/
def resolveApiBase (providerLower : JStr) (apiBaseVal : Option Jval) : BaseResolution :=
  if jsFalsyOpt apiBaseVal then
    if providerLower = "openai".toList then .ok "https://api.openai.com/v1".toList
    else if providerLower = "anthropic".toList then .ok "https://api.anthropic.com/v1".toList
    else if providerLower = "cohere".toList then .ok "https://api.cohere.ai/v1".toList
    else if providerLower = "google".toList then
      .ok "https://generativelanguage.googleapis.com/v1beta/openai".toList
    else if providerLower = "gemini".toList then
      .ok "https://generativelanguage.googleapis.com/v1beta/openai".toList
    else .reject
  else
    match apiBaseVal with
    | some (.vstr s) => .ok s
    | _ => .thrown

/-- URL gluing of lines 71-75: strip one trailing `/` from the base,
ensure the endpoint path has a leading `/`, concatenate. -/
def buildDownstreamUrl (apiBaseUrl endpointPath : JStr) : JStr :=
  (if apiBaseUrl.getLast? = some '/' then apiBaseUrl.dropLast else apiBaseUrl) ++
  (if endpointPath.head? = some '/' then endpointPath else '/' :: endpointPath)

/-- Mirror of lines 8 and 80-83: the rest-spread drops `model` and
`calliopeProperties` from the inbound body, and the spread re-adds
`model` bound to the parsed bare model name. -/
def requestBodyForDownstream (body : BodyFn) (modelName : JStr) : BodyFn :=
  fun k =>
    if k = modelKey then some (.vstr modelName)
    else if k = calliopePropertiesKey then none
    else body k

/-- The terminal state of `handleProxyRequest` relevant here: a 400-class
rejection, a thrown `TypeError` (forwarded to the global error handler),
or the forwarding call `proxyLlmRequest(req, url, apiKey, body)`. -/
inductive ProxyOutcome where
  | reject (status : Nat) (kind : RejectKind)
  | thrown
  | forward (downstreamUrl : JStr) (apiKey : JStr) (modelName : JStr) (body : BodyFn)

/-- Mirror of `handleProxyRequest`
(src/controllers/modelProxyController.ts, lines 6-85): field-presence
checks, model parse, credential resolution, endpoint resolution, body
sanitisation, then forwarding.  A truthy non-string `apiKeyLocation`
throws inside `getApiKey` on `.startsWith`, modelled as `thrown`. -/
def handleProxyRequest (env : EnvFn) (body : BodyFn) (endpointPath : JStr) : ProxyOutcome :=
  if jsFalsyOpt (body modelKey) then .reject 400 .missingModel
  else if jsFalsyOpt (body calliopePropertiesKey) then .reject 400 .missingCalliopeProperties
  else if jsFalsyOpt (getFieldOpt (body calliopePropertiesKey) apiKeyLocationKey) then
    .reject 400 .missingApiKeyLocation
  else
    let parsedModel := parseModelVal (body modelKey)
    if !parsedModel.isValid then .reject 400 (.invalidModelFormat parsedModel.error)
    else
      match getFieldOpt (body calliopePropertiesKey) apiKeyLocationKey with
      | some (.vstr apiKeyLocation) =>
        match getApiKey env (some apiKeyLocation) with
        | none => .reject 400 .apiKeyFailed
        | some apiKey =>
          match resolveApiBase (jsToLower parsedModel.provider)
              (getFieldOpt (body calliopePropertiesKey) apiBaseKey) with
          | .thrown => .thrown
          | .reject => .reject 400 .apiBaseRequired
          | .ok apiBaseUrl =>
            .forward (buildDownstreamUrl apiBaseUrl endpointPath) apiKey
              parsedModel.modelName
              (requestBodyForDownstream body parsedModel.modelName)
      | _ => .thrown

/-- How the controller sends the upstream result back to the caller:
a single buffered `res.json(...)` or a piped byte stream. -/
inductive SendMode where
  | bufferedJson
  | pipedStream
deriving DecidableEq, Repr

/-- The terminal state of `proxyRerank`: rejection, thrown error, or the
forwarding call together with the relay mode used for the result. -/
inductive RerankOutcome where
  | reject (status : Nat) (kind : RejectKind)
  | thrown
  | relay (downstreamUrl : JStr) (apiKey : JStr) (modelName : JStr)
      (body : BodyFn) (send : SendMode)

/-- The provider list `supportedRerankProviders` (line 177). -/
def supportedRerankProviders : List JStr := ["cohere".toList]

/-- Mirror of the rerank-specific `apiBase` block (lines 194-213); the
endpoint is `/rerank` on every path. -/
def resolveRerankApiBase (providerLower : JStr) (apiBaseVal : Option Jval) : BaseResolution :=
  if jsFalsyOpt apiBaseVal then
    if providerLower = "cohere".toList then .ok "https://api.cohere.ai/v1".toList
    else .reject
  else
    match apiBaseVal with
    | some (.vstr s) => .ok s
    | _ => .thrown

/-- The rerank endpoint path constant (lines 196, 203). -/
def rerankEndpoint : JStr := "/rerank".toList

/-- Mirror of `proxyRerank` (src/controllers/modelProxyController.ts,
lines 146-245): identical validation prefix, then the provider
capability gate strictly before `getApiKey`, then endpoint resolution,
body sanitisation, forwarding, and an unconditional buffered JSON send
of the result (line 239 — there is no stream branch). -/
def proxyRerank (env : EnvFn) (body : BodyFn) : RerankOutcome :=
  if jsFalsyOpt (body modelKey) then .reject 400 .missingModel
  else if jsFalsyOpt (body calliopePropertiesKey) then .reject 400 .missingCalliopeProperties
  else if jsFalsyOpt (getFieldOpt (body calliopePropertiesKey) apiKeyLocationKey) then
    .reject 400 .missingApiKeyLocation
  else
    let parsedModel := parseModelVal (body modelKey)
    if !parsedModel.isValid then .reject 400 (.invalidModelFormat parsedModel.error)
    else
      let provider := jsToLower parsedModel.provider
      if provider ∈ supportedRerankProviders then
        match getFieldOpt (body calliopePropertiesKey) apiKeyLocationKey with
        | some (.vstr apiKeyLocation) =>
          match getApiKey env (some apiKeyLocation) with
          | none => .reject 400 .apiKeyFailed
          | some apiKey =>
            match resolveRerankApiBase provider
                (getFieldOpt (body calliopePropertiesKey) apiBaseKey) with
            | .thrown => .thrown
            | .reject => .reject 400 .apiBaseRequired
            | .ok apiBaseUrl =>
              .relay (buildDownstreamUrl apiBaseUrl rerankEndpoint) apiKey
                parsedModel.modelName
                (requestBodyForDownstream body parsedModel.modelName)
                .bufferedJson
        | _ => .thrown
      else .reject 400 (.rerankUnsupported provider)

/-- A frontier entry: the request URL together with
`request.userData.depth` (src/services/crawlerService.ts). -/
structure CrawlTask where
  url : JStr
  depth : Nat
deriving DecidableEq, Repr

/-- Mirror of the `CrawledData` interface (crawlerService.ts, lines
11-18). -/
structure CrawledData where
  url : JStr
  path : JStr
  title : Option JStr
  bodySnippet : Option JStr
  markdownContent : Option JStr
  error : Option JStr
deriving DecidableEq, Repr

/-- Mirror of the `CrawlerOptions` interface (lines 20-24). -/
structure CrawlerOptions where
  startUrl : JStr
  maxDepth : Nat
  maxRequests : Nat

/-- The external world of one crawl: the headless-browser fetch, the
page content extractors, the link graph discovered by `enqueueLinks`,
the Markitdown conversion service, and the optional vector store
(`none` = `OPENAI_API_KEY` unset, store not initialised; `some idx` with
`idx url = some msg` an indexing failure, `none` success). -/
structure CrawlEnv where
  fetchOk : JStr → Bool
  pageTitle : JStr → JStr
  pagePath : JStr → JStr
  pageSnippet : JStr → JStr
  pageLinks : JStr → List JStr
  markdown : JStr → Except JStr JStr
  indexing : Option (JStr → Option JStr)
  failMessage : JStr → JStr

/-- The page record built by `requestHandler` (lines 78-124): title and
snippet extraction, the Markitdown call whose failure sets `error`
without discarding the page, and the vector-store step whose failure is
appended to (or installs) `error`. -/
def buildRecord (cenv : CrawlEnv) (url : JStr) : CrawledData :=
  let base : CrawledData :=
    { url := url, path := cenv.pagePath url, title := some (cenv.pageTitle url),
      bodySnippet := some (cenv.pageSnippet url), markdownContent := none, error := none }
  match cenv.markdown url with
  | .error msg =>
    { base with error := some ("Failed to convert HTML to Markdown: ".toList ++ msg) }
  | .ok md =>
    let page := { base with markdownContent := some md }
    match cenv.indexing with
    | none => page
    | some idx =>
      match idx url with
      | none => page
      | some msg =>
        match page.error with
        | some e =>
          { page with error := some (e ++ "; Failed to add to vector store: ".toList ++ msg) }
        | none =>
          { page with error := some ("Failed to add to vector store: ".toList ++ msg) }

/-- One run of `requestHandler` (lines 70-152) on a navigated page,
given the number of already-collected records: the depth guard skips
over-deep pages; otherwise the record is pushed and, when
`currentDepth < maxDepth`, each discovered link passes through
`transformRequestFunction`, which enqueues it at `depth + 1` only while
the collected count (including the just-pushed record) is below
`maxRequests`.  Returns the records pushed and the tasks enqueued. -/
def handleTask (cenv : CrawlEnv) (maxDepth maxRequests collectedLen : Nat)
    (t : CrawlTask) : List CrawledData × List CrawlTask :=
  if maxDepth < t.depth then ([], [])
  else
    let record := buildRecord cenv t.url
    let newTasks :=
      if t.depth < maxDepth then
        (cenv.pageLinks t.url).filterMap fun u =>
          if collectedLen + 1 < maxRequests then some ⟨u, t.depth + 1⟩ else none
      else []
    ([record], newTasks)

/-- The record pushed by `failedRequestHandler` (lines 154-166). -/
def failRecord (cenv : CrawlEnv) (url : JStr) : CrawledData :=
  { url := url, path := cenv.pagePath url, title := none, bodySnippet := none,
    markdownContent := none,
    error := some ("Failed to crawl: ".toList ++ cenv.failMessage url) }

/-- Crawl state: the frontier queue and the `collectedData` array, plus
instrumentation recording every task ever enqueued, every task whose
page was navigated, and the frontier depth of each collected record. -/
structure CrawlState where
  frontier : List CrawlTask
  collected : List CrawledData
  processed : Nat
  everEnqueued : List CrawlTask
  fetched : List CrawlTask
  collectedDepths : List Nat

/-- The crawl driver: one sequential schedule of the crawlee run loop.
Each iteration dequeues one request; `maxRequestsPerCrawl` stops the
loop once `processed` reaches `maxRequests`.  A failed navigation runs
`failedRequestHandler`; a successful one runs `requestHandler` (the page
is navigated — hence recorded in `fetched` — before the handler's depth
guard runs).  The fuel argument only bounds recursion: each iteration
increments `processed`, so `maxRequests` fuel is never exhausted before
the loop's own stopping condition (`crawlLoop_fuel_irrelevant`). -/
def crawlLoop (cenv : CrawlEnv) (maxDepth maxRequests : Nat) :
    Nat → CrawlState → CrawlState
  | 0, st => st
  | fuel + 1, st =>
    match st.frontier with
    | [] => st
    | t :: rest =>
      if st.processed < maxRequests then
        if cenv.fetchOk t.url then
          let step := handleTask cenv maxDepth maxRequests st.collected.length t
          crawlLoop cenv maxDepth maxRequests fuel
            { frontier := rest ++ step.2
              collected := st.collected ++ step.1
              processed := st.processed + 1
              everEnqueued := st.everEnqueued ++ step.2
              fetched := st.fetched ++ [t]
              collectedDepths := st.collectedDepths ++ step.1.map (fun _ => t.depth) }
        else
          crawlLoop cenv maxDepth maxRequests fuel
            { frontier := rest
              collected := st.collected ++ [failRecord cenv t.url]
              processed := st.processed + 1
              everEnqueued := st.everEnqueued
              fetched := st.fetched
              collectedDepths := st.collectedDepths ++ [t.depth] }
      else st

/-- The initial state: `crawler.addRequests([{url: startUrl, userData:
{depth: 0}}])` (line 169). -/
def initState (startUrl : JStr) : CrawlState :=
  { frontier := [⟨startUrl, 0⟩], collected := [], processed := 0,
    everEnqueued := [⟨startUrl, 0⟩], fetched := [], collectedDepths := [] }

/-- The state at the end of `crawler.run()`. -/
def crawlFinalState (cenv : CrawlEnv) (options : CrawlerOptions) : CrawlState :=
  crawlLoop cenv options.maxDepth options.maxRequests options.maxRequests
    (initState options.startUrl)

/-- Mirror of `CrawlerService.launchCrawl` (lines 50-179): run the
crawl, return `collectedData`. -/
def launchCrawl (cenv : CrawlEnv) (options : CrawlerOptions) : List CrawledData :=
  (crawlFinalState cenv options).collected

/-- Depth bound on a crawl state: every frontier task, every task ever
enqueued, every navigated page's task, and every collected record's
origin depth is at most `maxDepth`. -/
def CrawlState.depthBounded (maxDepth : Nat) (st : CrawlState) : Prop :=
  (∀ t ∈ st.frontier, t.depth ≤ maxDepth) ∧
  (∀ t ∈ st.everEnqueued, t.depth ≤ maxDepth) ∧
  (∀ t ∈ st.fetched, t.depth ≤ maxDepth) ∧
  (∀ d ∈ st.collectedDepths, d ≤ maxDepth)

/-- One scheduler event of the concurrent crawlee driver: take the next
frontier request into an in-flight handler slot, or complete the
`i`-th in-flight handler (successful navigation runs `requestHandler`,
a failed one runs `failedRequestHandler`). -/
inductive CrawlAction where
  | start
  | finishOk (i : Nat)
  | finishFail (i : Nat)
deriving Repr

/-- State of the concurrent driver: pending frontier, requests whose
handlers are in flight, the `collectedData` array, and the count of
handled (completed) requests that `maxRequestsPerCrawl` is checked
against. -/
structure ConcCrawlState where
  frontier : List CrawlTask
  inFlight : List CrawlTask
  collected : List CrawledData
  handled : Nat

/-- One transition of the concurrent driver.  Crawlee only stops
STARTING new requests once the handled count reaches
`maxRequestsPerCrawl` and the autoscaled pool holds at most
`maxConcurrency` handlers; requests already in flight still complete
and their handlers still push records, so completions are not gated by
the budget. -/
def concStep (cenv : CrawlEnv) (maxDepth maxRequests maxConcurrency : Nat)
    (st : ConcCrawlState) (a : CrawlAction) : ConcCrawlState :=
  match a with
  | .start =>
    match st.frontier with
    | [] => st
    | t :: rest =>
      if st.handled < maxRequests ∧ st.inFlight.length < maxConcurrency then
        { st with frontier := rest, inFlight := st.inFlight ++ [t] }
      else st
  | .finishOk i =>
    match st.inFlight[i]? with
    | none => st
    | some t =>
      let step := handleTask cenv maxDepth maxRequests st.collected.length t
      { frontier := st.frontier ++ step.2
        inFlight := st.inFlight.eraseIdx i
        collected := st.collected ++ step.1
        handled := st.handled + 1 }
  | .finishFail i =>
    match st.inFlight[i]? with
    | none => st
    | some t =>
      { frontier := st.frontier
        inFlight := st.inFlight.eraseIdx i
        collected := st.collected ++ [failRecord cenv t.url]
        handled := st.handled + 1 }

/-- Run of the concurrent driver under a given schedule. -/
def concCrawlRun (cenv : CrawlEnv) (maxDepth maxRequests maxConcurrency : Nat) :
    List CrawlAction → ConcCrawlState → ConcCrawlState
  | [], st => st
  | a :: actions, st =>
    concCrawlRun cenv maxDepth maxRequests maxConcurrency actions
      (concStep cenv maxDepth maxRequests maxConcurrency st a)

/-- Initial concurrent state: the start URL at depth 0. -/
def concInitState (startUrl : JStr) : ConcCrawlState :=
  { frontier := [⟨startUrl, 0⟩], inFlight := [], collected := [], handled := 0 }

/-- `launchCrawl` under an arbitrary schedule of the concurrent driver,
with the source's `maxConcurrency: 5` (crawlerService.ts line 65). -/
def concLaunchCrawl (cenv : CrawlEnv) (options : CrawlerOptions)
    (actions : List CrawlAction) : List CrawledData :=
  (concCrawlRun cenv options.maxDepth options.maxRequests 5 actions
    (concInitState options.startUrl)).collected

/-- Budget accounting of the concurrent driver: the collected records
never outnumber the handled requests, and since every start happens
while `handled < maxRequests` with a free one of the `maxConcurrency`
slots, the handled-plus-in-flight total never exceeds
`maxRequests + maxConcurrency - 1`. -/
def ConcCrawlState.budgetInv (maxRequests maxConcurrency : Nat)
    (st : ConcCrawlState) : Prop :=
  st.collected.length ≤ st.handled ∧
  st.handled + st.inFlight.length ≤ maxRequests + maxConcurrency - 1

/-- Fixture: a small site rooted at `a` with three outbound links. -/
def witnessCrawlEnv : CrawlEnv :=
  { fetchOk := fun _ => true
    pageTitle := fun u => u
    pagePath := fun u => '/' :: u
    pageSnippet := fun u => u
    pageLinks := fun u =>
      if u = "a".toList then ["b".toList, "c".toList, "d".toList] else []
    markdown := fun u => .ok u
    indexing := none
    failMessage := fun _ => "net".toList }

/-- The `/`-join of four segments, the inverse image of a successful
4-way split. -/
def joinSlash (a b c d : JStr) : JStr :=
  a ++ ('/' :: (b ++ ('/' :: (c ++ ('/' :: d)))))

/-! ### Concrete fixtures used by witnesses -/

/-- Fixture: an environment with the single variable `KEY`. -/
def oneKeyEnv : EnvFn :=
  fun n => if n = "KEY".toList then some ("secret".toList) else none

/-- Fixture: a chat-completions body with compound model
`o/p/openai/gpt-4`, an `env:KEY` credential location, and one extra
field `temperature`. -/
def chatBody : BodyFn := fun k =>
  if k = modelKey then some (.vstr ("o/p/openai/gpt-4".toList))
  else if k = calliopePropertiesKey then
    some (.vobj [(apiKeyLocationKey, .vstr ("env:KEY".toList))])
  else if k = "temperature".toList then some (.vnum 1)
  else none

/-- Fixture: a rerank body naming the unsupported provider `openai` and
a credential location pointing at an unset variable. -/
def rerankOpenaiBody : BodyFn := fun k =>
  if k = modelKey then some (.vstr ("x/y/openai/gpt-4".toList))
  else if k = calliopePropertiesKey then
    some (.vobj [(apiKeyLocationKey, .vstr ("env:MISSING".toList))])
  else none

/-- Fixture: a rerank body for provider `cohere` with `stream: true`. -/
def rerankStreamBody : BodyFn := fun k =>
  if k = modelKey then some (.vstr ("x/y/cohere/rerank-v3".toList))
  else if k = calliopePropertiesKey then
    some (.vobj [(apiKeyLocationKey, .vstr ("env:KEY".toList))])
  else if k = streamKey then some (.vbool true)
  else none

/-! ### Lemmas about `splitSlash` -/

theorem splitSlash_ne_nil (s : JStr) : splitSlash s ≠ [] := by
  cases s with
  | nil => simp [splitSlash]
  | cons c rest =>
    by_cases hc : c = '/' <;> simp only [splitSlash, hc, if_true, if_false, reduceIte]
    · simp
    · rcases h : splitSlash rest with _ | ⟨s₀, ss⟩ <;> simp [hc, h]

theorem splitSlash_single (d : JStr) (hd : '/' ∉ d) : splitSlash d = [d] := by
  induction d with
  | nil => rfl
  | cons c ds ih =>
    have hc : ¬c = '/' := fun h => hd (h ▸ List.mem_cons_self c ds)
    have hds : '/' ∉ ds := fun h => hd (List.mem_cons_of_mem c h)
    simp [splitSlash, hc, ih hds]

theorem splitSlash_append (a rest : JStr) (ha : '/' ∉ a) :
    splitSlash (a ++ '/' :: rest) = a :: splitSlash rest := by
  induction a with
  | nil => simp [splitSlash]
  | cons c as ih =>
    have hc : ¬c = '/' := fun h => ha (h ▸ List.mem_cons_self c as)
    have has : '/' ∉ as := fun h => ha (List.mem_cons_of_mem c h)
    simp [splitSlash, hc, ih has]

theorem not_slash_of_mem_splitSlash {s p : JStr} (hp : p ∈ splitSlash s) : '/' ∉ p := by
  induction s generalizing p with
  | nil =>
    simp only [splitSlash, List.mem_singleton] at hp
    subst hp; simp
  | cons c rest ih =>
    by_cases hc : c = '/'
    · subst hc
      simp only [splitSlash, if_true, reduceIte, List.mem_cons] at hp
      rcases hp with h | h
      · subst h; simp
      · exact ih h
    · rcases hrest : splitSlash rest with _ | ⟨s₀, ss⟩
      · exact absurd hrest (splitSlash_ne_nil rest)
      · simp only [splitSlash, hc, if_false, reduceIte, hrest, List.mem_cons] at hp
        rcases hp with h | h
        · subst h
          intro hmem
          rcases List.mem_cons.mp hmem with h | h
          · exact hc h.symm
          · exact ih (hrest ▸ List.mem_cons_self s₀ ss) h
        · exact ih (hrest ▸ List.mem_cons_of_mem s₀ h)

theorem slash_mem_of_two_le {s : JStr} (h : 2 ≤ (splitSlash s).length) : '/' ∈ s := by
  induction s with
  | nil => simp [splitSlash] at h
  | cons c rest ih =>
    by_cases hc : c = '/'
    · exact hc ▸ List.mem_cons_self c rest
    · rcases hrest : splitSlash rest with _ | ⟨s₀, ss⟩
      · exact absurd hrest (splitSlash_ne_nil rest)
      · simp only [splitSlash, hc, if_false, reduceIte, hrest, List.length_cons] at h
        have : 2 ≤ (splitSlash rest).length := by
          rw [hrest]; simpa using h
        exact List.mem_cons_of_mem c (ih this)

theorem parseModelString_of_split4 {s a b c d : JStr}
    (he : List.isEmpty s = false) (hsplit : splitSlash s = [a, b, c, d]) :
    parseModelString s =
      if (List.isEmpty a || List.isEmpty b || List.isEmpty c || List.isEmpty d) = true then
        ⟨a, b, c, d, false, some .emptySegment⟩
      else ⟨a, b, c, d, true, none⟩ := by
  unfold parseModelString
  rw [he, hsplit]
  simp

theorem parseModelString_of_not4 {s : JStr} (he : List.isEmpty s = false)
    (h4 : (splitSlash s).length ≠ 4) :
    parseModelString s = ⟨[], [], [], [], false, some .invalidFormat⟩ := by
  unfold parseModelString
  rw [he]
  rcases hsplit : splitSlash s with _ | ⟨a, _ | ⟨b, _ | ⟨c, _ | ⟨d, _ | ⟨e, es⟩⟩⟩⟩⟩ <;>
    rw [hsplit] at h4 <;> simp_all

theorem parseModelString_valid_inv {s : JStr}
    (h : (parseModelString s).isValid = true) :
    ∃ a b c d, splitSlash s = [a, b, c, d] ∧
      a ≠ [] ∧ b ≠ [] ∧ c ≠ [] ∧ d ≠ [] ∧
      parseModelString s = ⟨a, b, c, d, true, none⟩ := by
  cases he : List.isEmpty s with
  | true => simp [parseModelString, he] at h
  | false =>
    by_cases h4 : (splitSlash s).length = 4
    case neg => rw [parseModelString_of_not4 he h4] at h; simp at h
    rcases hsplit : splitSlash s with _ | ⟨a, _ | ⟨b, _ | ⟨c, _ | ⟨d, _ | ⟨e, es⟩⟩⟩⟩⟩ <;>
      rw [hsplit] at h4 <;> simp at h4
    rw [parseModelString_of_split4 he hsplit] at h
    cases hempty : (List.isEmpty a || List.isEmpty b || List.isEmpty c || List.isEmpty d) with
    | true => rw [hempty] at h; simp at h
    | false =>
      have h' := hempty
      simp only [Bool.or_eq_false_iff, List.isEmpty_eq_false] at h'
      exact ⟨a, b, c, d, rfl, h'.1.1.1, h'.1.1.2, h'.1.2, h'.2,
        by rw [parseModelString_of_split4 he hsplit, hempty]; simp⟩

/-! ### Claim C3 -/

/-- C3 (amended): `parseModelString` recovers the exact 4 components of
any `/`-join of 4 non-empty SLASH-FREE segments (a segment with an
embedded slash shifts the split onto more than 4 parts and the parse
fails, see the second counterexample); on any NON-EMPTY string whose
split on `/` does not yield exactly 4 parts it fails with the
invalid-format error (the empty string instead takes the
null-or-not-a-string branch, see the first counterexample); on any
string splitting into 4 parts of which at least one is empty it fails
with the empty-segment error. -/
theorem claim_C3 :
    (∀ a b c d : JStr, a ≠ [] → b ≠ [] → c ≠ [] → d ≠ [] →
      '/' ∉ a → '/' ∉ b → '/' ∉ c → '/' ∉ d →
      parseModelString (joinSlash a b c d) = ⟨a, b, c, d, true, none⟩)
  ∧ (∀ s : JStr, s ≠ [] → (splitSlash s).length ≠ 4 →
      parseModelString s = ⟨[], [], [], [], false, some .invalidFormat⟩)
  ∧ (∀ s a b c d : JStr, splitSlash s = [a, b, c, d] →
      (a = [] ∨ b = [] ∨ c = [] ∨ d = []) →
      (parseModelString s).isValid = false ∧
      (parseModelString s).error = some .emptySegment) := by
  refine ⟨?_, ?_, ?_⟩
  · intro a b c d ha hb hc hd hsa hsb hsc hsd
    have he : List.isEmpty (joinSlash a b c d) = false := by
      simp [joinSlash]
    have hsplit : splitSlash (joinSlash a b c d) = [a, b, c, d] := by
      unfold joinSlash
      rw [splitSlash_append a _ hsa, splitSlash_append b _ hsb, splitSlash_append c _ hsc,
        splitSlash_single d hsd]
    rw [parseModelString_of_split4 he hsplit]
    simp [ha, hb, hc, hd]
  · intro s hs h4
    exact parseModelString_of_not4 (List.isEmpty_eq_false.mpr hs) h4
  · intro s a b c d hsplit hempty
    have hs : List.isEmpty s = false := by
      cases s with
      | nil => simp [splitSlash] at hsplit
      | cons c rest => rfl
    have hcond : (List.isEmpty a || List.isEmpty b || List.isEmpty c || List.isEmpty d) = true := by
      rcases hempty with h | h | h | h <;> simp [h]
    rw [parseModelString_of_split4 hs hsplit, hcond]
    simp

/-- C3 counterexample, two refuting inputs.  First, the empty string
splits into 1 part (not 4), yet `parseModelString` fails with the
null-or-not-a-string error, not the invalid-format error, because the
JavaScript guard `!modelString` catches the (falsy) empty string before
the split (proxyUtils.ts lines 11-20).  Second, the `/`-join of the 4
non-empty segments `a/b`, `c`, `d`, `e` — the first carrying an
embedded slash — splits into 5 parts, so the parse fails with the
invalid-format error instead of recovering those 4 components: the
successful-parse clause holds only for slash-free segments. -/
theorem claim_C3_counterexample :
    ((splitSlash ("".toList)).length ≠ 4 ∧
     parseModelString ("".toList) = ⟨[], [], [], [], false, some .nullOrNotString⟩ ∧
     (parseModelString ("".toList)).error ≠ some .invalidFormat)
  ∧ (("a/b".toList : JStr) ≠ [] ∧ '/' ∈ ("a/b".toList : JStr) ∧
     joinSlash ("a/b".toList) ("c".toList) ("d".toList) ("e".toList) =
       "a/b/c/d/e".toList ∧
     parseModelString
         (joinSlash ("a/b".toList) ("c".toList) ("d".toList) ("e".toList)) =
       ⟨[], [], [], [], false, some .invalidFormat⟩) := by
  refine ⟨⟨by decide, by decide, by decide⟩, by decide, by decide, by decide, by decide⟩

/-- C3 witness: the amended theorem applied to the spec's own examples
`o/p/openai/gpt-4`, `openai/gpt-4` and `a//c/d`. -/
theorem claim_C3_witness :
    parseModelString (joinSlash "o".toList "p".toList "openai".toList "gpt-4".toList)
      = ⟨"o".toList, "p".toList, "openai".toList, "gpt-4".toList, true, none⟩
  ∧ parseModelString ("openai/gpt-4".toList) = ⟨[], [], [], [], false, some .invalidFormat⟩
  ∧ (parseModelString ("a//c/d".toList)).isValid = false
  ∧ (parseModelString ("a//c/d".toList)).error = some .emptySegment := by
  refine ⟨claim_C3.1 "o".toList "p".toList "openai".toList "gpt-4".toList
      (by decide) (by decide) (by decide) (by decide)
      (by decide) (by decide) (by decide) (by decide),
    claim_C3.2.1 ("openai/gpt-4".toList) (by decide) (by decide),
    (claim_C3.2.2 ("a//c/d".toList) "a".toList [] "c".toList "d".toList
      (by decide) (by decide)).1,
    (claim_C3.2.2 ("a//c/d".toList) "a".toList [] "c".toList "d".toList
      (by decide) (by decide)).2⟩

/-! ### Claim C8 -/

/-- C8 (amended): `getApiKey` is deterministic given the environment:
`env:NAME` resolves to the value of `NAME` when that value is set and
non-empty, and to null when `NAME` is unset or set to the empty string
(the JavaScript guard `!apiKey` treats an empty value like a missing
one, see the counterexample); an undefined or empty descriptor and any
descriptor not starting with `env:` resolve to null. -/
theorem claim_C8 (env : EnvFn) (name v : JStr) :
    (env name = none → getApiKey env (some (envMarker ++ name)) = none)
  ∧ (env name = some v → v ≠ [] → getApiKey env (some (envMarker ++ name)) = some v)
  ∧ (env name = some [] → getApiKey env (some (envMarker ++ name)) = none)
  ∧ getApiKey env none = none
  ∧ getApiKey env (some []) = none
  ∧ (∀ loc : JStr, jsStartsWith envMarker loc = false → getApiKey env (some loc) = none) := by
  have hmain : getApiKey env (some (envMarker ++ name)) =
      (match env name with
       | none => none
       | some apiKey => if apiKey.isEmpty then none else some apiKey) := by
    have hsw : jsStartsWith envMarker (envMarker ++ name) = true := by
      show jsStartsWith ('e' :: 'n' :: 'v' :: ':' :: [])
        ('e' :: 'n' :: 'v' :: ':' :: name) = true
      simp [jsStartsWith]
    have he : List.isEmpty (envMarker ++ name) = false := rfl
    have hdrop : (envMarker ++ name).drop 4 = name := rfl
    simp only [getApiKey, he, hsw, hdrop]
    simp
  refine ⟨?_, ?_, ?_, rfl, rfl, ?_⟩
  · intro h; rw [hmain, h]
  · intro h hv; rw [hmain, h]
    simp [List.isEmpty_eq_false.mpr hv]
  · intro h; rw [hmain, h]; rfl
  · intro loc hswf
    cases hloc : List.isEmpty loc with
    | true => simp [getApiKey, hloc]
    | false => simp [getApiKey, hloc, hswf]

/-- C8 counterexample: with the environment variable `FOO` set to the
empty string, `getApiKey("env:FOO")` returns null rather than the
current (empty) value, because `!apiKey` is true for the empty string
(llmProxyService.ts line 336). -/
theorem claim_C8_counterexample :
    (fun n => if n = "FOO".toList then some ([] : JStr) else none : EnvFn) ("FOO".toList)
      = some []
  ∧ getApiKey (fun n => if n = "FOO".toList then some ([] : JStr) else none)
      (some ("env:FOO".toList)) = none := by
  exact ⟨by decide, by decide⟩

/-- C8 witness: the amended theorem applied to a one-variable
environment mapping `FOO` to `secret`. -/
theorem claim_C8_witness :
    getApiKey (fun n => if n = "FOO".toList then some ("secret".toList) else none)
      (some ("env:FOO".toList)) = some ("secret".toList)
  ∧ getApiKey (fun n => if n = "FOO".toList then some ("secret".toList) else none)
      (some ("env:BAR".toList)) = none
  ∧ getApiKey (fun n => if n = "FOO".toList then some ("secret".toList) else none)
      none = none
  ∧ getApiKey (fun n => if n = "FOO".toList then some ("secret".toList) else none)
      (some ("".toList)) = none
  ∧ getApiKey (fun n => if n = "FOO".toList then some ("secret".toList) else none)
      (some ("vault:FOO".toList)) = none := by
  refine ⟨?_, ?_, ?_, ?_, ?_⟩
  · exact (claim_C8 _ ("FOO".toList) ("secret".toList)).2.1 (by decide) (by decide)
  · exact (claim_C8 _ ("BAR".toList) []).1 (by decide)
  · exact (claim_C8 _ [] []).2.2.2.1
  · exact (claim_C8 _ [] []).2.2.2.2.1
  · exact (claim_C8 _ [] []).2.2.2.2.2 ("vault:FOO".toList) (by decide)

/-! ### Claims C4, C5, C9 -/

/-- C4 (amended): `proxyLlmRequest` is total (never throws) and, for
every upstream outcome with valid HTTP statuses, returns a
`ForwardResult` whose status is a valid HTTP status integer.  On a
resolved call the upstream status, body and headers are returned
verbatim, so the result body is null exactly when the upstream's parsed
2xx body is null — the unconditional never-null invariant fails there
(see the counterexample).  On every failure path the body is non-null:
an upstream error response with a TRUTHY body is passed through with
its exact status and body, a falsy error-response body (null, false, 0
or the empty string) is replaced by the structured error/details object
because of the JavaScript fallback (see the counterexample), no
response at all yields a synthetic 500 carrying the transport message,
and a non-axios failure yields a synthetic 500 with the generic
error/details body. -/
theorem claim_C4 (o : AxiosOutcome) (hwf : o.wf) :
    (100 ≤ (proxyLlmRequest o).status ∧ (proxyLlmRequest o).status ≤ 599)
  ∧ (∀ s d h, o = .success s d h → proxyLlmRequest o = ⟨s, d, h⟩)
  ∧ (∀ s d h m, o = .errorWithResponse s d h m →
      (proxyLlmRequest o).data.isNull = false)
  ∧ (∀ s d h m, o = .errorWithResponse s d h m → d.falsy = false →
      proxyLlmRequest o = ⟨s, d, h⟩)
  ∧ (∀ m, o = .errorNoResponse m →
      proxyLlmRequest o = ⟨500, errBody proxyErrText m, []⟩)
  ∧ (∀ m, o = .nonAxiosError m →
      proxyLlmRequest o = ⟨500, errBody unexpectedErrText m, []⟩) := by
  cases o with
  | success s d hs =>
    refine ⟨hwf, ?_, ?_, ?_, ?_, ?_⟩
    · intro s' d' h' heq
      injection heq with e1 e2 e3
      subst e1; subst e2; subst e3
      rfl
    · intro s' d' h' m' heq; exact nomatch heq
    · intro s' d' h' m' heq _; exact nomatch heq
    · intro m' heq; exact nomatch heq
    · intro m' heq; exact nomatch heq
  | errorWithResponse s d hs m =>
    obtain ⟨h1, h2⟩ := hwf
    have hs0 : ¬s = 0 := by omega
    refine ⟨?_, ?_, ?_, ?_, ?_, ?_⟩
    · simp only [proxyLlmRequest, if_neg hs0]
      exact ⟨h1, h2⟩
    · intro s' d' h' heq; exact nomatch heq
    · intro s' d' h' m' heq
      simp only [proxyLlmRequest]
      cases hd : d.falsy with
      | true => simp [hd, errBody, Jval.isNull]
      | false =>
        simp only [hd, Bool.false_eq_true, if_false]
        cases d <;> simp_all [Jval.falsy, Jval.isNull]
    · intro s' d' h' m' heq hfal
      injection heq with e1 e2 e3 e4
      subst e1; subst e2; subst e3; subst e4
      simp [proxyLlmRequest, if_neg hs0, hfal]
    · intro m' heq; exact nomatch heq
    · intro m' heq; exact nomatch heq
  | errorNoResponse m =>
    refine ⟨⟨?_, ?_⟩, ?_, ?_, ?_, ?_, ?_⟩
    · show (100 : Nat) ≤ 500; norm_num
    · show (500 : Nat) ≤ 599; norm_num
    · intro s' d' h' heq; exact nomatch heq
    · intro s' d' h' m' heq; exact nomatch heq
    · intro s' d' h' m' heq _; exact nomatch heq
    · intro m' heq; injection heq with e1; subst e1; rfl
    · intro m' heq; exact nomatch heq
  | nonAxiosError m =>
    refine ⟨⟨?_, ?_⟩, ?_, ?_, ?_, ?_, ?_⟩
    · show (100 : Nat) ≤ 500; norm_num
    · show (500 : Nat) ≤ 599; norm_num
    · intro s' d' h' heq; exact nomatch heq
    · intro s' d' h' m' heq; exact nomatch heq
    · intro s' d' h' m' heq _; exact nomatch heq
    · intro m' heq; exact nomatch heq
    · intro m' heq; injection heq with e1; subst e1; rfl

/-- C4 counterexample, two refuting inputs.  First, the upstream
responds 404 with the JSON body `false` — a body, but a falsy one — and
`proxyLlmRequest` does not return it verbatim: the fallback on
`response.data` replaces it with the structured error object
(llmProxyService.ts line 403).  Second, the upstream resolves 200 with
the parsed JSON body `null`, and `proxyLlmRequest` returns that null
body (line 387), refuting the claim that the body is never null. -/
theorem claim_C4_counterexample :
    (proxyLlmRequest (.errorWithResponse 404 (.vbool false) [] ("boom".toList)) =
       ⟨404, errBody proxyErrText ("boom".toList), []⟩
     ∧ Jval.vbool false ≠ errBody proxyErrText ("boom".toList))
  ∧ (proxyLlmRequest (.success 200 .vnull []) = ⟨200, .vnull, []⟩
     ∧ (proxyLlmRequest (.success 200 .vnull [])).data.isNull = true) := by
  refine ⟨⟨rfl, ?_⟩, rfl, rfl⟩
  intro h
  simp [errBody] at h

/-- C4 witness: the amended theorem applied to a resolved 200 with an
object body, a 404 with a truthy JSON object body, a transport failure,
and a non-axios failure. -/
theorem claim_C4_witness :
    proxyLlmRequest (.success 200 (.vobj []) []) = ⟨200, .vobj [], []⟩
  ∧ proxyLlmRequest (.errorWithResponse 404 (.vobj [("a".toList, .vnum 1)]) []
      ("m".toList)) = ⟨404, .vobj [("a".toList, .vnum 1)], []⟩
  ∧ (proxyLlmRequest (.errorWithResponse 404 (.vobj [("a".toList, .vnum 1)]) []
      ("m".toList))).data.isNull = false
  ∧ proxyLlmRequest (.errorNoResponse ("m".toList)) =
      ⟨500, errBody proxyErrText ("m".toList), []⟩
  ∧ proxyLlmRequest (.nonAxiosError ("m".toList)) =
      ⟨500, errBody unexpectedErrText ("m".toList), []⟩ := by
  have h0 := claim_C4 (.success 200 (.vobj []) []) ⟨by norm_num, by norm_num⟩
  have h1 := claim_C4 (.errorWithResponse 404 (.vobj [("a".toList, .vnum 1)]) []
    ("m".toList)) ⟨by norm_num, by norm_num⟩
  have h2 := claim_C4 (.errorNoResponse ("m".toList)) trivial
  have h3 := claim_C4 (.nonAxiosError ("m".toList)) trivial
  exact ⟨h0.2.1 200 (.vobj []) [] rfl,
    h1.2.2.2.1 404 (.vobj [("a".toList, .vnum 1)]) [] ("m".toList) rfl rfl,
    h1.2.2.1 404 (.vobj [("a".toList, .vnum 1)]) [] ("m".toList) rfl,
    h2.2.2.2.2.1 ("m".toList) rfl,
    h3.2.2.2.2.2 ("m".toList) rfl⟩

/-- C5: the outbound transport configuration is determined exactly by
the body's `stream` flag: truthy gives a streamed response
representation and no timeout (axios `timeout: 0` = unbounded); absent
or falsy gives a buffered JSON response with a 30-second (30000 ms)
timeout. -/
theorem claim_C5 (req : InboundRequest) (url apiKey : JStr) (body : BodyFn) :
    (jsFalsyOpt (body streamKey) = false →
      (mkAxiosConfig req url apiKey body).responseType = .stream ∧
      (mkAxiosConfig req url apiKey body).timeout = 0)
  ∧ (jsFalsyOpt (body streamKey) = true →
      (mkAxiosConfig req url apiKey body).responseType = .json ∧
      (mkAxiosConfig req url apiKey body).timeout = 30000) := by
  constructor <;> intro h <;> simp [mkAxiosConfig, h]

/-- C5 witness: the theorem applied to a body with `stream: true` and to
a body with no `stream` key. -/
theorem claim_C5_witness :
    ((mkAxiosConfig ⟨"POST".toList, []⟩ ("u".toList) ("k".toList)
        (fun k => if k = streamKey then some (.vbool true) else none)).responseType
      = .stream
    ∧ (mkAxiosConfig ⟨"POST".toList, []⟩ ("u".toList) ("k".toList)
        (fun k => if k = streamKey then some (.vbool true) else none)).timeout = 0)
  ∧ ((mkAxiosConfig ⟨"POST".toList, []⟩ ("u".toList) ("k".toList)
        (fun _ => none)).responseType = .json
    ∧ (mkAxiosConfig ⟨"POST".toList, []⟩ ("u".toList) ("k".toList)
        (fun _ => none)).timeout = 30000) :=
  ⟨(claim_C5 ⟨"POST".toList, []⟩ ("u".toList) ("k".toList)
      (fun k => if k = streamKey then some (.vbool true) else none)).1 (by decide),
   (claim_C5 ⟨"POST".toList, []⟩ ("u".toList) ("k".toList)
      (fun _ => none)).2 rfl⟩

/-- C9: the outbound header set depends only on the API key: any two
inbound requests agreeing on method, URL, key and body produce identical
outbound configs regardless of their inbound headers, and the outbound
headers are always exactly `Content-Type: application/json` and
`Authorization: Bearer <apiKey>` — no inbound header is forwarded. -/
theorem claim_C9 (r₁ r₂ : InboundRequest) (url apiKey : JStr) (body : BodyFn)
    (h : r₁.method = r₂.method) :
    mkAxiosConfig r₁ url apiKey body = mkAxiosConfig r₂ url apiKey body
  ∧ (mkAxiosConfig r₁ url apiKey body).headers =
      [("Content-Type".toList, "application/json".toList),
       ("Authorization".toList, "Bearer ".toList ++ apiKey)] := by
  constructor
  · simp [mkAxiosConfig, h]
  · rfl

/-- C9 witness: the theorem applied to two requests that differ in an
inbound `x-api-key` header. -/
theorem claim_C9_witness :
    mkAxiosConfig ⟨"POST".toList, [("x-api-key".toList, "leak".toList)]⟩
        ("u".toList) ("k".toList) (fun _ => none)
      = mkAxiosConfig ⟨"POST".toList, []⟩ ("u".toList) ("k".toList) (fun _ => none)
  ∧ (mkAxiosConfig ⟨"POST".toList, [("x-api-key".toList, "leak".toList)]⟩
        ("u".toList) ("k".toList) (fun _ => none)).headers =
      [("Content-Type".toList, "application/json".toList),
       ("Authorization".toList, "Bearer ".toList ++ "k".toList)] :=
  claim_C9 ⟨"POST".toList, [("x-api-key".toList, "leak".toList)]⟩
    ⟨"POST".toList, []⟩ ("u".toList) ("k".toList) (fun _ => none) rfl

/-! ### Claims C1, C2, C10 -/

theorem parseModelVal_valid_inv : ∀ {o : Option Jval},
    (parseModelVal o).isValid = true →
    ∃ s, o = some (.vstr s) ∧ parseModelVal o = parseModelString s
  | some (.vstr s), _ => ⟨s, rfl, rfl⟩
  | none, h => nomatch h
  | some .vnull, h => nomatch h
  | some (.vbool _), h => nomatch h
  | some (.vnum _), h => nomatch h
  | some (.varr _), h => nomatch h
  | some (.vobj _), h => nomatch h

theorem modelName_ne_compound {s : JStr}
    (h : (parseModelString s).isValid = true) :
    (parseModelString s).modelName ≠ s := by
  obtain ⟨a, b, c, d, hsplit, _, _, _, _, heq⟩ := parseModelString_valid_inv h
  have hmem : d ∈ splitSlash s := by rw [hsplit]; simp
  have hnoslash : '/' ∉ d := not_slash_of_mem_splitSlash hmem
  have hslash : '/' ∈ s := slash_mem_of_two_le (by rw [hsplit]; norm_num)
  rw [heq]
  show d ≠ s
  intro hcontra
  exact hnoslash (hcontra ▸ hslash)

/-- C1: for every accepted model-proxy request (one reaching the
forwarding call), the body sent downstream has `calliopeProperties`
removed, `model` set to the bare parsed model name — never the compound
string — and every other key unchanged. -/
theorem claim_C1 (env : EnvFn) (body : BodyFn)
    (endpointPath url apiKey mname : JStr) (fwd : BodyFn)
    (h : handleProxyRequest env body endpointPath = .forward url apiKey mname fwd) :
    fwd calliopePropertiesKey = none
  ∧ (∃ s, body modelKey = some (.vstr s) ∧ (parseModelString s).isValid = true ∧
      mname = (parseModelString s).modelName ∧
      fwd modelKey = some (.vstr mname) ∧ mname ≠ s)
  ∧ (∀ k, k ≠ modelKey → k ≠ calliopePropertiesKey → fwd k = body k) := by
  have hck : ¬(calliopePropertiesKey = modelKey) := by decide
  simp only [handleProxyRequest] at h
  split at h; · exact nomatch h
  split at h; · exact nomatch h
  split at h; · exact nomatch h
  split at h
  case isTrue => exact nomatch h
  case isFalse hvalid =>
  rw [Bool.not_eq_true, Bool.not_eq_false'] at hvalid
  obtain ⟨s, hs, hpv⟩ := parseModelVal_valid_inv hvalid
  split at h <;> try exact ProxyOutcome.noConfusion h
  split at h <;> try exact ProxyOutcome.noConfusion h
  split at h <;> try exact ProxyOutcome.noConfusion h
  injection h with h1 h2 h3 h4
  subst h2; subst h3; subst h4
  refine ⟨?_, ⟨s, hs, ?_, ?_, ?_, ?_⟩, ?_⟩
  · simp [requestBodyForDownstream, hck]
  · rw [← hpv]; exact hvalid
  · rw [hpv]
  · simp [requestBodyForDownstream]
  · rw [hpv]; exact modelName_ne_compound (hpv ▸ hvalid)
  · intro k hk1 hk2
    simp [requestBodyForDownstream, hk1, hk2]

/-- C1 witness: the theorem applied to an accepted chat-completions
request carrying an extra `temperature` field. -/
theorem claim_C1_witness :
    handleProxyRequest oneKeyEnv chatBody ("/chat/completions".toList) =
      .forward ("https://api.openai.com/v1/chat/completions".toList) ("secret".toList)
        ("gpt-4".toList) (requestBodyForDownstream chatBody ("gpt-4".toList))
  ∧ requestBodyForDownstream chatBody ("gpt-4".toList) calliopePropertiesKey = none
  ∧ requestBodyForDownstream chatBody ("gpt-4".toList) modelKey =
      some (.vstr ("gpt-4".toList))
  ∧ requestBodyForDownstream chatBody ("gpt-4".toList) ("temperature".toList) =
      chatBody ("temperature".toList)
  ∧ ("gpt-4".toList : JStr) ≠ "o/p/openai/gpt-4".toList := by
  have h : handleProxyRequest oneKeyEnv chatBody ("/chat/completions".toList) =
      .forward ("https://api.openai.com/v1/chat/completions".toList) ("secret".toList)
        ("gpt-4".toList) (requestBodyForDownstream chatBody ("gpt-4".toList)) := rfl
  have hc := claim_C1 oneKeyEnv chatBody ("/chat/completions".toList)
    ("https://api.openai.com/v1/chat/completions".toList) ("secret".toList)
    ("gpt-4".toList) (requestBodyForDownstream chatBody ("gpt-4".toList)) h
  refine ⟨h, hc.1, ?_, hc.2.2 ("temperature".toList) (by decide) (by decide), by decide⟩
  obtain ⟨s, _, _, _, hfm, _⟩ := hc.2.1
  exact hfm

/-- C2: a rerank request whose compound model parses to a provider
outside the supported-rerank set is rejected with the capability-gate
400 for EVERY environment — the outcome does not depend on the
environment, so credential resolution can play no part in it, and in
particular a missing API key still yields the capability-gate 400, not
the credential-failure 400. -/
theorem claim_C2 (env : EnvFn) (body : BodyFn) (s : JStr)
    (hm : body modelKey = some (.vstr s))
    (hcp : jsFalsyOpt (body calliopePropertiesKey) = false)
    (hakl : jsFalsyOpt (getFieldOpt (body calliopePropertiesKey) apiKeyLocationKey) = false)
    (hvalid : (parseModelString s).isValid = true)
    (hprov : jsToLower (parseModelString s).provider ∉ supportedRerankProviders) :
    proxyRerank env body =
      .reject 400 (.rerankUnsupported (jsToLower (parseModelString s).provider)) := by
  have hs0 : s ≠ [] := by
    intro he
    subst he
    simp [parseModelString] at hvalid
  have hmf : jsFalsyOpt (body modelKey) = false := by
    rw [hm]
    simp [jsFalsyOpt, Jval.falsy, List.isEmpty_eq_false.mpr hs0]
  have hmf2 : jsFalsyOpt (some (.vstr s)) = false := by
    simp [jsFalsyOpt, Jval.falsy, List.isEmpty_eq_false.mpr hs0]
  simp [proxyRerank, hm, parseModelVal, hvalid, hprov, hcp, hakl, hmf, hmf2]

/-- C2 witness: the theorem applied to the spec's example
`x/y/openai/gpt-4` under the EMPTY environment (every API key missing):
the outcome is the capability-gate 400 reject, and the credential lookup
for the request's own `env:MISSING` descriptor would indeed fail. -/
theorem claim_C2_witness :
    proxyRerank (fun _ => none) rerankOpenaiBody =
      .reject 400 (.rerankUnsupported ("openai".toList))
  ∧ getApiKey (fun _ => none) (some ("env:MISSING".toList)) = none := by
  constructor
  · exact claim_C2 (fun _ => none) rerankOpenaiBody ("x/y/openai/gpt-4".toList)
      rfl (by decide) (by decide) (by decide) (by decide)
  · rfl

/-- C10 (implicit): every accepted rerank request is relayed as a single
buffered JSON send — never a piped stream — even though the inbound
`stream` flag is not stripped from the forwarded body, so a truthy flag
still makes the forwarder request a stream response representation. -/
theorem claim_C10 (env : EnvFn) (body : BodyFn) (url apiKey mname : JStr)
    (fwd : BodyFn) (send : SendMode)
    (h : proxyRerank env body = .relay url apiKey mname fwd send) :
    send = .bufferedJson
  ∧ fwd streamKey = body streamKey
  ∧ (∀ req : InboundRequest, jsFalsyOpt (body streamKey) = false →
      (mkAxiosConfig req url apiKey fwd).responseType = .stream) := by
  have hsk1 : ¬(streamKey = modelKey) := by decide
  have hsk2 : ¬(streamKey = calliopePropertiesKey) := by decide
  simp only [proxyRerank] at h
  split at h; · exact RerankOutcome.noConfusion h
  split at h; · exact RerankOutcome.noConfusion h
  split at h; · exact RerankOutcome.noConfusion h
  split at h
  case isTrue => exact RerankOutcome.noConfusion h
  case isFalse hvalid =>
  split at h
  case isFalse => exact RerankOutcome.noConfusion h
  case isTrue hgate =>
  split at h <;> try exact RerankOutcome.noConfusion h
  split at h <;> try exact RerankOutcome.noConfusion h
  split at h <;> try exact RerankOutcome.noConfusion h
  injection h with h1 h2 h3 h4 h5
  subst h2; subst h3; subst h4; subst h5
  refine ⟨rfl, ?_, ?_⟩
  · simp [requestBodyForDownstream, hsk1, hsk2]
  · intro req htr
    simp [mkAxiosConfig, requestBodyForDownstream, hsk1, hsk2, htr]

/-- C10 witness: the theorem applied to an accepted cohere rerank
request with `stream: true`. -/
theorem claim_C10_witness :
    proxyRerank oneKeyEnv rerankStreamBody =
      .relay ("https://api.cohere.ai/v1/rerank".toList) ("secret".toList)
        ("rerank-v3".toList)
        (requestBodyForDownstream rerankStreamBody ("rerank-v3".toList)) .bufferedJson
  ∧ requestBodyForDownstream rerankStreamBody ("rerank-v3".toList) streamKey =
      rerankStreamBody streamKey
  ∧ rerankStreamBody streamKey = some (.vbool true)
  ∧ (mkAxiosConfig ⟨"POST".toList, []⟩ ("https://api.cohere.ai/v1/rerank".toList)
      ("secret".toList)
      (requestBodyForDownstream rerankStreamBody ("rerank-v3".toList))).responseType =
      .stream := by
  have h : proxyRerank oneKeyEnv rerankStreamBody =
      .relay ("https://api.cohere.ai/v1/rerank".toList) ("secret".toList)
        ("rerank-v3".toList)
        (requestBodyForDownstream rerankStreamBody ("rerank-v3".toList)) .bufferedJson := rfl
  have hc := claim_C10 oneKeyEnv rerankStreamBody
    ("https://api.cohere.ai/v1/rerank".toList) ("secret".toList) ("rerank-v3".toList)
    (requestBodyForDownstream rerankStreamBody ("rerank-v3".toList)) .bufferedJson h
  exact ⟨h, hc.2.1, rfl, hc.2.2 ⟨"POST".toList, []⟩ (by decide)⟩

/-! ### Claims C6, C7 -/

theorem handleTask_records_le (cenv : CrawlEnv) (mD N len : Nat) (t : CrawlTask) :
    (handleTask cenv mD N len t).1.length ≤ 1 := by
  simp only [handleTask]
  split <;> simp

theorem handleTask_budget_suppression (cenv : CrawlEnv) (mD N len : Nat)
    (t : CrawlTask) (h : N ≤ len + 1) :
    (handleTask cenv mD N len t).2 = [] := by
  have hlt : ¬(len + 1 < N) := by omega
  simp only [handleTask]
  split
  · rfl
  · split
    · simp [hlt]
    · rfl

theorem crawlLoop_collected_le (cenv : CrawlEnv) (maxDepth maxRequests : Nat) :
    ∀ (fuel : Nat) (st : CrawlState),
      (crawlLoop cenv maxDepth maxRequests fuel st).collected.length ≤
        st.collected.length + (maxRequests - st.processed) := by
  intro fuel
  induction fuel with
  | zero => intro st; simp [crawlLoop]
  | succ fuel ih =>
    intro st
    rcases hf : st.frontier with _ | ⟨t, rest⟩
    · simp [crawlLoop, hf]
    · by_cases hp : st.processed < maxRequests
      · cases hfk : cenv.fetchOk t.url with
        | true =>
          simp only [crawlLoop, hf, if_pos hp, hfk, if_true]
          refine le_trans (ih _) ?_
          have hrec := handleTask_records_le cenv maxDepth maxRequests
            st.collected.length t
          simp only [List.length_append]
          omega
        | false =>
          simp only [crawlLoop, hf, if_pos hp, hfk, Bool.false_eq_true, if_false]
          refine le_trans (ih _) ?_
          simp only [List.length_append, List.length_cons, List.length_nil]
          omega
      · simp only [crawlLoop, hf, if_neg hp]
        omega

theorem handleTask_tasks_depth (cenv : CrawlEnv) (mD N len : Nat) (t : CrawlTask) :
    ∀ t' ∈ (handleTask cenv mD N len t).2, t'.depth ≤ mD := by
  intro t' ht'
  simp only [handleTask] at ht'
  split at ht'
  · simp at ht'
  · split at ht'
    case isTrue hlt =>
      simp only [List.mem_filterMap] at ht'
      obtain ⟨u, _, hu⟩ := ht'
      split at hu
      · injection hu with hu'
        subst hu'
        simpa using hlt
      · exact nomatch hu
    case isFalse => simp at ht'

theorem crawlLoop_depthBounded (cenv : CrawlEnv) (maxDepth maxRequests : Nat) :
    ∀ (fuel : Nat) (st : CrawlState), st.depthBounded maxDepth →
      (crawlLoop cenv maxDepth maxRequests fuel st).depthBounded maxDepth := by
  intro fuel
  induction fuel with
  | zero => intro st h; simpa [crawlLoop] using h
  | succ fuel ih =>
    intro st h
    obtain ⟨hfr, henq, hfet, hcd⟩ := h
    rcases hf : st.frontier with _ | ⟨t, rest⟩
    · simp only [crawlLoop, hf]
      exact ⟨hfr, henq, hfet, hcd⟩
    · have hTt : t.depth ≤ maxDepth := hfr t (by rw [hf]; exact List.mem_cons_self t rest)
      have hrest : ∀ t' ∈ rest, t'.depth ≤ maxDepth := fun t' h' =>
        hfr t' (by rw [hf]; exact List.mem_cons_of_mem t h')
      by_cases hp : st.processed < maxRequests
      · cases hfk : cenv.fetchOk t.url with
        | true =>
          simp only [crawlLoop, hf, if_pos hp, hfk, if_true]
          apply ih
          refine ⟨?_, ?_, ?_, ?_⟩
          · intro t' ht'
            rcases List.mem_append.mp ht' with h' | h'
            · exact hrest t' h'
            · exact handleTask_tasks_depth cenv maxDepth maxRequests
                st.collected.length t t' h'
          · intro t' ht'
            rcases List.mem_append.mp ht' with h' | h'
            · exact henq t' h'
            · exact handleTask_tasks_depth cenv maxDepth maxRequests
                st.collected.length t t' h'
          · intro t' ht'
            rcases List.mem_append.mp ht' with h' | h'
            · exact hfet t' h'
            · rw [List.mem_singleton.mp h']
              exact hTt
          · intro d hd
            rcases List.mem_append.mp hd with h' | h'
            · exact hcd d h'
            · obtain ⟨_, _, hmap⟩ := List.mem_map.mp h'
              exact hmap ▸ hTt
        | false =>
          simp only [crawlLoop, hf, if_pos hp, hfk, Bool.false_eq_true, if_false]
          apply ih
          refine ⟨hrest, henq, hfet, ?_⟩
          intro d hd
          rcases List.mem_append.mp hd with h' | h'
          · exact hcd d h'
          · rw [List.mem_singleton.mp h']
            exact hTt
      · simp only [crawlLoop, hf, if_neg hp]
        exact ⟨hfr, henq, hfet, hcd⟩

theorem concStep_budgetInv (cenv : CrawlEnv) (mD N c : Nat)
    (st : ConcCrawlState) (a : CrawlAction) (h : st.budgetInv N c) :
    (concStep cenv mD N c st a).budgetInv N c := by
  obtain ⟨h1, h2⟩ := h
  cases a with
  | start =>
    simp only [concStep]
    split
    · exact ⟨h1, h2⟩
    next x t rest heq =>
      split
      next hcond =>
        obtain ⟨hN, hc⟩ := hcond
        refine ⟨h1, ?_⟩
        show st.handled + (st.inFlight ++ [t]).length ≤ N + c - 1
        simp only [List.length_append, List.length_cons, List.length_nil]
        omega
      next => exact ⟨h1, h2⟩
  | finishOk i =>
    simp only [concStep]
    split
    · exact ⟨h1, h2⟩
    next x t heq =>
      have hi : i < st.inFlight.length := (List.getElem?_eq_some_iff.mp heq).1
      have hrec := handleTask_records_le cenv mD N st.collected.length t
      have herase : (st.inFlight.eraseIdx i).length = st.inFlight.length - 1 :=
        List.length_eraseIdx_of_lt hi
      constructor
      · show (st.collected ++
            (handleTask cenv mD N st.collected.length t).1).length ≤ st.handled + 1
        simp only [List.length_append]
        omega
      · show st.handled + 1 + (st.inFlight.eraseIdx i).length ≤ N + c - 1
        omega
  | finishFail i =>
    simp only [concStep]
    split
    · exact ⟨h1, h2⟩
    next x t heq =>
      have hi : i < st.inFlight.length := (List.getElem?_eq_some_iff.mp heq).1
      have herase : (st.inFlight.eraseIdx i).length = st.inFlight.length - 1 :=
        List.length_eraseIdx_of_lt hi
      constructor
      · show (st.collected ++ [failRecord cenv t.url]).length ≤ st.handled + 1
        simp only [List.length_append, List.length_cons, List.length_nil]
        omega
      · show st.handled + 1 + (st.inFlight.eraseIdx i).length ≤ N + c - 1
        omega

theorem concCrawlRun_budgetInv (cenv : CrawlEnv) (mD N c : Nat) :
    ∀ (actions : List CrawlAction) (st : ConcCrawlState), st.budgetInv N c →
      (concCrawlRun cenv mD N c actions st).budgetInv N c := by
  intro actions
  induction actions with
  | nil => intro st h; exact h
  | cons a as ih =>
    intro st h
    exact ih _ (concStep_budgetInv cenv mD N c st a h)

/-- C6 (amended): under every schedule of the concurrent driver (the
source configures `maxConcurrency: 5`), the returned page list has
length at most `maxRequests + 4`: crawlee stops starting new requests
once the handled count reaches the budget, but up to 5 in-flight
handlers may still complete and push records, so the exact
`maxRequests` bound fails under concurrency (see the counterexample)
while holding for the purely sequential schedule; and once the number
of completed page records reaches `maxRequests`,
`transformRequestFunction` suppresses all further link enqueueing —
links are filtered out before they enter the frontier, not fetched and
discarded. -/
theorem claim_C6 (cenv : CrawlEnv) (options : CrawlerOptions)
    (actions : List CrawlAction) :
    (concLaunchCrawl cenv options actions).length ≤ options.maxRequests + 4
  ∧ (∀ maxDepth maxRequests collectedLen : Nat, ∀ t : CrawlTask,
      maxRequests ≤ collectedLen + 1 →
      (handleTask cenv maxDepth maxRequests collectedLen t).2 = [])
  ∧ (launchCrawl cenv options).length ≤ options.maxRequests := by
  refine ⟨?_, ?_, ?_⟩
  · have h := concCrawlRun_budgetInv cenv options.maxDepth options.maxRequests 5
      actions (concInitState options.startUrl)
      ⟨by simp [concInitState], by simp [concInitState]⟩
    obtain ⟨h1, h2⟩ := h
    simp only [concLaunchCrawl]
    omega
  · intro mD N len t h
    exact handleTask_budget_suppression cenv mD N len t h
  · have h := crawlLoop_collected_le cenv options.maxDepth options.maxRequests
      options.maxRequests (initState options.startUrl)
    simpa [launchCrawl, crawlFinalState, initState] using h

/-- C6 counterexample: on the three-link site with `maxRequests = 2`,
the schedule that starts `a`, completes it (collecting 1 record and
enqueueing `b`, `c`, `d` while the budget allows), then starts `b` and
`c` concurrently (handled count still 1 < 2) and lets both in-flight
handlers complete, collects 3 page records — the claimed `≤ maxRequests`
bound fails for the concurrent driver. -/
theorem claim_C6_counterexample :
    (concLaunchCrawl witnessCrawlEnv ⟨"a".toList, 5, 2⟩
      [.start, .finishOk 0, .start, .start, .finishOk 0, .finishOk 0]).length = 3
  ∧ ¬((concLaunchCrawl witnessCrawlEnv ⟨"a".toList, 5, 2⟩
      [.start, .finishOk 0, .start, .start, .finishOk 0, .finishOk 0]).length ≤ 2) := by
  refine ⟨by decide, by decide⟩

/-- C6 witness: the amended theorem applied to the counterexample's own
schedule (3 ≤ 6), to the suppression clause at a completed count that
has reached the budget, and to the sequential run. -/
theorem claim_C6_witness :
    (concLaunchCrawl witnessCrawlEnv ⟨"a".toList, 5, 2⟩
      [.start, .finishOk 0, .start, .start, .finishOk 0, .finishOk 0]).length ≤ 6
  ∧ (handleTask witnessCrawlEnv 5 2 1 ⟨"b".toList, 1⟩).2 = []
  ∧ (launchCrawl witnessCrawlEnv ⟨"a".toList, 5, 2⟩).length ≤ 2 :=
  ⟨(claim_C6 witnessCrawlEnv ⟨"a".toList, 5, 2⟩
      [.start, .finishOk 0, .start, .start, .finishOk 0, .finishOk 0]).1,
   (claim_C6 witnessCrawlEnv ⟨"a".toList, 5, 2⟩
      [.start, .finishOk 0, .start, .start, .finishOk 0, .finishOk 0]).2.1
     5 2 1 ⟨"b".toList, 1⟩ (by decide),
   (claim_C6 witnessCrawlEnv ⟨"a".toList, 5, 2⟩
      [.start, .finishOk 0, .start, .start, .finishOk 0, .finishOk 0]).2.2⟩

/-- C7: every task ever placed in the frontier has depth at most
`maxDepth` (the start task has depth 0 and links are enqueued at
`depth + 1` only when the current depth is strictly below `maxDepth`),
so no page of greater depth is ever navigated and every collected record
originates from a task of depth at most `maxDepth`. -/
theorem claim_C7 (cenv : CrawlEnv) (options : CrawlerOptions) :
    (∀ t ∈ (crawlFinalState cenv options).everEnqueued, t.depth ≤ options.maxDepth)
  ∧ (∀ t ∈ (crawlFinalState cenv options).fetched, t.depth ≤ options.maxDepth)
  ∧ (∀ d ∈ (crawlFinalState cenv options).collectedDepths, d ≤ options.maxDepth) := by
  have h : (crawlFinalState cenv options).depthBounded options.maxDepth := by
    apply crawlLoop_depthBounded
    refine ⟨?_, ?_, ?_, ?_⟩ <;> simp [initState]
  exact ⟨h.2.1, h.2.2.1, h.2.2.2⟩

/-- C7 witness: the theorem applied to the three-link site with
`maxDepth = 1`: the enqueued link task `b` at depth 1 is within bound,
and every navigated task is. -/
theorem claim_C7_witness :
    (⟨"b".toList, 1⟩ : CrawlTask) ∈
      (crawlFinalState witnessCrawlEnv ⟨"a".toList, 1, 10⟩).everEnqueued
  ∧ (⟨"b".toList, 1⟩ : CrawlTask).depth ≤ 1
  ∧ (∀ t ∈ (crawlFinalState witnessCrawlEnv ⟨"a".toList, 1, 10⟩).fetched,
      t.depth ≤ 1) := by
  refine ⟨by decide, ?_, (claim_C7 witnessCrawlEnv ⟨"a".toList, 1, 10⟩).2.1⟩
  exact (claim_C7 witnessCrawlEnv ⟨"a".toList, 1, 10⟩).1 ⟨"b".toList, 1⟩ (by decide)

end CalliopeProxy
